import Mathlib

/-!
Shallow embedding of `cmd/go-langserver/doc.go`: the documentation-resolution
pipeline (`IdentDoc`, `formatNode`, `findInBuiltin`, `PackageDoc`, `Doc.String`).

External collaborators (go/types object strings, go/printer, go/parser,
astutil.PathEnclosingInterval, build.Context.Import, doc.New, doc.ToText) are
modelled as oracle fields of an `Env` record or as explicit function
parameters; everything written in `doc.go` itself is translated directly.

Comment groups (`*ast.CommentGroup`) are modelled as `Option String`, where
`some t` stands for a non-nil group whose `.Text()` method returns `t`, and
`none` for a nil group (whose `.Text()` returns `""` in Go).
`token.Pos` is a `Nat`; position `0` is `token.NoPos` (invalid).
-/

namespace GoTools

/-- A package as seen through `types.Package` (`Path()` and `Name()`). -/
structure Pkg where
  path : String
  name : String
deriving DecidableEq

/-- The dynamic kind of a `types.Object`, as discriminated by the type
assertions in `doc.go`: `*types.PkgName` (carrying `Imported().Path()`),
`*types.Const` (carrying `Val().ExactString()`), `*types.Var` (carrying
`Anonymous()`), or any other object kind. -/
inductive ObjKind where
  | pkgName (importedPath : String)
  | const (exactString : String)
  | var (anonymous : Bool)
  | other
deriving DecidableEq

/-- A resolved `types.Object`: its `Name()`, `Pos()`, `Pkg()`, kind, and the
result of its (externally computed) `String()` method. -/
structure Obj where
  name : String
  pos : Nat
  pkg : Option Pkg
  kind : ObjKind
  str : String
deriving DecidableEq

/-- `*ast.TypeSpec`: `Doc`, `Comment`, name, position (`TypeSpec.Pos()` is the
name's position), and the right-hand-side type expression summarized as text
for the printer oracle. -/
structure TypeSpec where
  doc : Option String
  comment : Option String
  name : String
  pos : Nat
  rhs : String
deriving DecidableEq

/-- `*ast.ValueSpec`: `Doc`, `Comment`, the `Names` idents (name and position
pairs), and the values/type summarized as text. -/
structure ValueSpec where
  doc : Option String
  comment : Option String
  names : List (String × Nat)
  rhs : String
deriving DecidableEq

/-- `*ast.Field`: `Doc`, `Comment`, and the rest of the field summarized. -/
structure FieldNode where
  doc : Option String
  comment : Option String
  rest : String
deriving DecidableEq

/-- `*ast.FuncDecl`: `Doc`, name, signature, and optional `Body`. -/
structure FuncDecl where
  doc : Option String
  name : String
  sig : String
  body : Option String
deriving DecidableEq

/-- The `Tok` of a `*ast.GenDecl` (`token.TYPE`, `token.CONST`, `token.VAR`,
`token.IMPORT`). -/
inductive Tok where
  | typeTok
  | constTok
  | varTok
  | importTok
deriving DecidableEq

/-- An `ast.Spec` inside a `GenDecl` (type, value, or import spec). -/
inductive Spec where
  | typeSpec (ts : TypeSpec)
  | valueSpec (vs : ValueSpec)
  | importSpec (path : String)
deriving DecidableEq

/-- `*ast.GenDecl`: `Doc`, `Tok`, `Lparen`/`Rparen` positions (0 = absent),
and the spec list. -/
structure GenDecl where
  doc : Option String
  tok : Tok
  lparen : Nat
  rparen : Nat
  specs : List Spec
deriving DecidableEq

/-- An `ast.Node` as discriminated by the type switches of `doc.go`:
identifier, function declaration, grouped declaration, field, type spec,
value spec, or any other node kind (block statements, files, ...), the last
summarized by a tag. -/
inductive Node where
  | ident (name : String) (pos : Nat)
  | funcDecl (f : FuncDecl)
  | genDecl (g : GenDecl)
  | field (f : FieldNode)
  | typeSpec (ts : TypeSpec)
  | valueSpec (vs : ValueSpec)
  | other (tag : String)
deriving DecidableEq

/-- The `Doc` output struct of `doc.go` (fields `Name`, `Import`, `Pkg`,
`Decl`, `Doc`, `Pos`). -/
structure Doc where
  Name : String
  Import : String
  Pkg : String
  Decl : String
  Doc : String
  Pos : String
deriving DecidableEq

/-- `(*Doc).String`: writes the import clause (when non-empty) and the
declaration, replaces an empty `Doc` field with "Undocumented." *on the
receiver* (a genuine mutation of the record), then appends the external
`doc.ToText` rendering of the (possibly replaced) documentation. Returns the
rendered string together with the final state of the receiver, which the Go
code reaches through the pointer. -/
def DocString (toText : String → String) (d : Doc) : String × Doc :=
  let buf := if d.Import ≠ "" then "import \"" ++ d.Import ++ "\"\n\n" else ""
  let buf := buf ++ d.Decl ++ "\n\n"
  let d := if d.Doc = "" then { d with Doc := "Undocumented." } else d
  (buf ++ toText d.Doc, d)

/-- `findTypeSpec`: scan `decl.Specs` for the (first) type spec whose
position equals `pos`. The Go code asserts `spec.(*ast.TypeSpec)` on every
element, which presumes a homogeneous type group (Go's parser only produces
homogeneous `GenDecl`s); non-type specs are skipped here, which agrees with
the source on every input on which the source does not panic. -/
def findTypeSpec (decl : GenDecl) (pos : Nat) : Option TypeSpec :=
  decl.specs.findSome? fun s =>
    match s with
    | .typeSpec ts => if ts.pos = pos then some ts else none
    | _ => none

/-- `findVarSpec`: scan `decl.Specs` for the (first) value spec one of whose
names sits at `pos`. Same homogeneity note as `findTypeSpec`. -/
def findVarSpec (decl : GenDecl) (pos : Nat) : Option ValueSpec :=
  decl.specs.findSome? fun s =>
    match s with
    | .valueSpec vs => if (vs.names.any fun nm => nm.2 = pos) then some vs else none
    | _ => none

/-- The sanitized copy `nc` computed by `formatNode`'s type switch before
printing: `none` when the switch returns early with `obj.String()` (the
`*ast.Field` case and the `default` case). For a `FuncDecl` the doc and body
are dropped; a bare `TypeSpec` is wrapped in a synthetic one-spec type
`GenDecl`; for a `GenDecl` the doc is dropped and, when the group holds type
or value specs, only the spec matching `obj.Pos()` is kept and the grouping
parentheses are cleared. -/
def sanitizeNode (n : Node) (obj : Obj) : Option Node :=
  match n with
  | .funcDecl f => some (.funcDecl { f with doc := none, body := none })
  | .field _ => none
  | .typeSpec ts =>
      some (.genDecl
        { doc := none, tok := .typeTok, lparen := 0, rparen := 0,
          specs := [.typeSpec { ts with doc := none }] })
  | .genDecl g =>
      let cp : GenDecl := { g with doc := none }
      let cp :=
        match g.specs with
        | [] => cp
        | s0 :: _ =>
          match s0 with
          | .typeSpec _ =>
              let cp :=
                match findTypeSpec g obj.pos with
                | some spec => { cp with specs := [Spec.typeSpec { spec with doc := none }] }
                | none => cp
              { cp with lparen := 0, rparen := 0 }
          | .valueSpec _ =>
              let cp :=
                match findVarSpec g obj.pos with
                | some spec => { cp with specs := [Spec.valueSpec { spec with doc := none }] }
                | none => cp
              { cp with lparen := 0, rparen := 0 }
          | _ => cp
      some (.genDecl cp)
  | _ => none

/-- `formatNode`: sanitize a copy of the node, then pretty-print it with the
external printer (`pr`, an oracle returning `none` on a printing error).
Unsupported node shapes and printer failures both fall back to
`obj.String()`. -/
def formatNode (pr : Node → Option String) (n : Node) (obj : Obj) : String :=
  match sanitizeNode n obj with
  | none => obj.str
  | some nc =>
    match pr nc with
    | none => obj.str
    | some s => s

/-- `doc.Value` (go/doc): constant/variable group with its bound names and
documentation. `doc.go` reads only `Names` and `Doc` of these. -/
structure DocValue where
  names : List String
  doc : String
deriving DecidableEq

/-- `doc.Func` (go/doc): a function with name, documentation, and its
`*ast.FuncDecl` declaration node. -/
structure DocFunc where
  name : String
  doc : String
  decl : Node
deriving DecidableEq

/-- `doc.Type` (go/doc): a type with name, documentation, its `*ast.GenDecl`
declaration node, and its associated functions, constants and variables. -/
structure DocType where
  name : String
  doc : String
  decl : Node
  funcs : List DocFunc
  consts : List DocValue
  vars : List DocValue
deriving DecidableEq

/-- `doc.Package` (go/doc): the parsed builtin package, as produced by the
external `builtinPackage()` (parsing `builtin.go` is out of the embedded
code's hands, so the catalogue is an oracle input). -/
structure DocPackage where
  funcs : List DocFunc
  consts : List DocValue
  vars : List DocValue
  types : List DocType
deriving DecidableEq

/-- The `funcs` slice built by `findInBuiltin`: package-level funcs followed
by each type's funcs, in type order. -/
def builtinFuncs (pkg : DocPackage) : List DocFunc :=
  pkg.funcs ++ (pkg.types.map DocType.funcs).flatten

/-- The `consts` slice built by `findInBuiltin`: package-level consts
followed by each type's consts, in type order. -/
def builtinConsts (pkg : DocPackage) : List DocValue :=
  pkg.consts ++ (pkg.types.map DocType.consts).flatten

/-- The `vars` slice built by `findInBuiltin`: package-level vars followed by
each type's vars, in type order. -/
def builtinVars (pkg : DocPackage) : List DocValue :=
  pkg.vars ++ (pkg.types.map DocType.vars).flatten

/-- `findInBuiltin`: search the builtin catalogue for `name`, in the fixed
order funcs, consts, vars, types, returning the first match's
`(docstring, decl)`. Constants and variables return an empty `decl`; a miss
returns `("", "")`. -/
def findInBuiltin (pr : Node → Option String) (pkg : DocPackage) (name : String)
    (obj : Obj) : String × String :=
  match (builtinFuncs pkg).find? (fun f => f.name = name) with
  | some f => (f.doc, formatNode pr f.decl obj)
  | none =>
  match (builtinConsts pkg).find? (fun v => v.names.contains name) with
  | some v => (v.doc, "")
  | none =>
  match (builtinVars pkg).find? (fun v => v.names.contains name) with
  | some v => (v.doc, "")
  | none =>
  match pkg.types.find? (fun t => t.name = name) with
  | some t => (t.doc, formatNode pr t.decl obj)
  | none => ("", "")

/-- Is the node a plain identifier? -/
def Node.isIdent : Node → Bool
  | .ident _ _ => true
  | _ => false

/-- The first loop of `IdentDoc` (declaration locator) over the enclosing
path: `case *ast.Ident: continue` skips identifiers; the five-kind case falls
through to the `doc = &Doc{...}; break` below the switch — and so does the
`default: break` case, because in Go a `break` inside a `switch` exits only
the switch, not the enclosing `for`. Hence the loop selects the first
non-identifier node of the path, of whatever kind; an all-identifier (or
empty) path yields no selection (`doc == nil`). -/
def locateDecl : List Node → Option Node
  | [] => none
  | node :: rest =>
    match node with
    | .ident _ _ => locateDecl rest
    | _ => some node

/-- The second loop of `IdentDoc` (documentation extractor) over the same
path, with `docText` the accumulated `doc.Doc` (initially `""`). Function
declarations overwrite with their doc text (`""` for a nil group) and stop;
fields prefer doc over trailing comment and stop; type and value specs stop
only when they carry their own doc or comment, else continue ascending;
a grouped declaration fills in its group doc when nothing is set, appends
`"\nConstant Value: <v>"` when the object is a constant, and stops; any
other node stops with what has accumulated; path exhaustion returns the
accumulation. -/
def extractLoop (obj : Obj) (docText : String) : List Node → String
  | [] => docText
  | node :: rest =>
    match node with
    | .ident _ _ => extractLoop obj docText rest
    | .funcDecl f => (f.doc.getD "")
    | .field f =>
        match f.doc with
        | some t => t
        | none =>
          match f.comment with
          | some t => t
          | none => docText
    | .typeSpec ts =>
        match ts.doc with
        | some t => t
        | none =>
          match ts.comment with
          | some t => t
          | none => extractLoop obj docText rest
    | .valueSpec vs =>
        match vs.doc with
        | some t => t
        | none =>
          match vs.comment with
          | some t => t
          | none => extractLoop obj docText rest
    | .genDecl g =>
        let constValue :=
          match obj.kind with
          | .const v => v
          | _ => ""
        let docText :=
          if docText = "" then
            match g.doc with
            | some t => t
            | none => docText
          else docText
        if constValue ≠ "" then docText ++ "\nConstant Value: " ++ constValue
        else docText
    | .other _ => docText

/-- A `*build.Package` as `doc.go` reads it (only `Name` matters here; `Dir`
and `GoFiles` are consumed inside the parse oracle). -/
structure BuildPkg where
  name : String
deriving DecidableEq

/-- An opaque `*ast.Package` handle produced by the parser oracle. -/
structure AstPkg where
  tag : String
deriving DecidableEq

/-- What `doc.New` extracts from a parsed package: its `Name` and `Doc`. -/
structure DocPkgInfo where
  name : String
  doc : String
deriving DecidableEq

/-- An `*ast.Ident` at a source position. -/
structure Ident where
  name : String
  pos : Nat
deriving DecidableEq

/-- The external collaborators of `doc.go`, fixed for one query:
`pkg.ObjectOf` / `pkg.Uses` (symbol tables), `prog.Fset.Position(...).String()`,
the parsed builtin catalogue, `astutil.PathEnclosingInterval` at a position,
the go/printer, `ctxt.Import`, `parser.ParseDir` (as a name-keyed package
list), and `doc.New`. -/
structure Env where
  objectOf : Ident → Obj
  uses : Ident → Obj
  posString : Nat → String
  builtin : DocPackage
  pathOf : Nat → List Node
  printer : Node → Option String
  importPkg : String → Except String BuildPkg
  parseDir : BuildPkg → Except String (List (String × AstPkg))
  docNew : AstPkg → String → DocPkgInfo

/-- `PackageDoc`: import-resolve the path, parse the package's files, and
build a package-level record `package <name>` with the package doc; errors
from import resolution or parsing propagate, and a missing package entry
yields the not-found error. -/
def PackageDoc (env : Env) (importPath : String) : Except String Doc :=
  match env.importPkg importPath with
  | .error e => .error e
  | .ok buildPkg =>
    match env.parseDir buildPkg with
    | .error e => .error e
    | .ok pkgs =>
      match pkgs.lookup buildPkg.name with
      | some astPkg =>
        let docPkg := env.docNew astPkg importPath
        .ok { Name := buildPkg.name, Decl := "package " ++ buildPkg.name,
              Doc := docPkg.doc, Import := importPath, Pkg := docPkg.name,
              Pos := "" }
      | none => .error ("No documentation found for " ++ buildPkg.name)

/-- The first two statements of `IdentDoc`: `obj := pkg.ObjectOf(id)`, then
the anonymous-field substitution `obj = pkg.Uses[id]` for anonymous
variables. -/
def resolveObj (env : Env) (id : Ident) : Obj :=
  let obj := env.objectOf id
  match obj.kind with
  | .var true => env.uses id
  | _ => obj

/-- `IdentDoc`: resolve the identifier (with anonymous-field substitution),
compute the position string, branch to `PackageDoc` for package names and to
`findInBuiltin` for objects without a package (erroring when the returned
docstring is empty), and otherwise run the two walks over the enclosing node
path: the locator picks the node to render, the extractor computes the
documentation text. -/
def IdentDoc (env : Env) (id : Ident) : Except String Doc :=
  let obj := resolveObj env id
  let pos := if obj.pos ≠ 0 then env.posString obj.pos else ""
  let pkgPath := match obj.pkg with | some p => p.path | none => ""
  let pkgName := match obj.pkg with | some p => p.name | none => ""
  match obj.kind with
  | .pkgName importedPath => PackageDoc env importedPath
  | _ =>
    match obj.pkg with
    | none =>
      let fb := findInBuiltin env.printer env.builtin obj.name obj
      if fb.1 ≠ "" then
        .ok { Import := "builtin", Pkg := "builtin", Name := obj.name,
              Doc := fb.1, Decl := fb.2, Pos := pos }
      else .error ("No documentation found for " ++ obj.name)
    | some _ =>
      let nodes := env.pathOf obj.pos
      match locateDecl nodes with
      | none => .error ("No documentation found for " ++ obj.name)
      | some node =>
        .ok { Import := pkgPath, Pkg := pkgName, Name := obj.name,
              Decl := formatNode env.printer node obj, Pos := pos,
              Doc := extractLoop obj "" nodes }

/-! ### Pointer-level model of `formatNode`

`formatNode` receives a pointer into the shared syntax tree and works on
struct copies (`cp := *n`, `specCp := *spec`), assigning only to those copies
and to freshly taken addresses (`nc = &cp`). To state the frame property
(C9-style non-mutation) the relevant node structs are re-modelled as cells of
an explicit heap; a pointer is an index, `cp := *n` is a read, and `&cp` is
an allocation at the end of the heap. The Go function contains no write
through an incoming pointer, so every branch below extends the heap and
leaves existing cells alone — which is exactly what the frame theorem
checks. -/

/-- A heap cell: one node struct reachable by pointer in `formatNode`
(`GenDecl.Specs` holds pointers to spec cells). -/
inductive Cell where
  | identC (name : String) (pos : Nat)
  | funcDeclC (doc : Option String) (name : String) (sig : String) (body : Option String)
  | typeSpecC (doc : Option String) (comment : Option String) (name : String) (pos : Nat) (rhs : String)
  | valueSpecC (doc : Option String) (comment : Option String) (names : List (String × Nat)) (rhs : String)
  | fieldC (doc : Option String) (comment : Option String) (rest : String)
  | genDeclC (doc : Option String) (tok : Tok) (lparen : Nat) (rparen : Nat) (specs : List Nat)
  | otherC (tag : String)
deriving DecidableEq

/-- The heap: cell `p` is the struct at address `p`. -/
abbrev Heap := List Cell

/-- `findTypeSpec` at the pointer level: first spec pointer whose cell is a
type spec sitting at `pos`. -/
def findTypeSpecH (h : Heap) (specs : List Nat) (pos : Nat) : Option Nat :=
  specs.find? fun p =>
    match h.get? p with
    | some (.typeSpecC _ _ _ ps _) => ps = pos
    | _ => false

/-- `findVarSpec` at the pointer level: first spec pointer whose cell is a
value spec one of whose names sits at `pos`. -/
def findVarSpecH (h : Heap) (specs : List Nat) (pos : Nat) : Option Nat :=
  specs.find? fun p =>
    match h.get? p with
    | some (.valueSpecC _ _ names _) => names.any fun nm => nm.2 = pos
    | _ => false

/-- The `GenDecl` arm of `formatNodeH`'s sanitization: given the copied
`Lparen`/`Rparen` and spec pointers of the group, compute the copy's final
spec-pointer list and parentheses, allocating a sanitized copy of the
matching spec when one is found (`spec := findTypeSpec/findVarSpec`,
`specCp := *spec; specCp.Doc = nil; cp.Specs = [&specCp]`). Returns the new
`(specs, lparen, rparen, heap)`. -/
def genDeclStepH (h : Heap) (lp rp : Nat) (specs : List Nat) (pos : Nat) :
    List Nat × Nat × Nat × Heap :=
  match specs with
  | [] => (specs, lp, rp, h)
  | s0 :: _ =>
    match h.get? s0 with
    | some (.typeSpecC _ _ _ _ _) =>
        (match findTypeSpecH h specs pos with
         | some sp =>
             match h.get? sp with
             | some (.typeSpecC _ cm nm ps rhs) =>
                 ([h.length], 0, 0, h ++ [.typeSpecC none cm nm ps rhs])
             | _ => (specs, 0, 0, h)
         | none => (specs, 0, 0, h))
    | some (.valueSpecC _ _ _ _) =>
        (match findVarSpecH h specs pos with
         | some sp =>
             match h.get? sp with
             | some (.valueSpecC _ cm nms rhs) =>
                 ([h.length], 0, 0, h ++ [.valueSpecC none cm nms rhs])
             | _ => (specs, 0, 0, h)
         | none => (specs, 0, 0, h))
    | _ => (specs, lp, rp, h)

/-- `formatNode` at the pointer level. `p` is the incoming node pointer,
`prH` the printer oracle reading the (extended) heap at the sanitized root.
Struct copies become heap reads, sanitized copies are allocated by appending,
and the incoming cells are never written. Branches that return `obj.String()`
before printing leave the heap as-is. -/
def formatNodeH (h : Heap) (p : Nat) (obj : Obj) (prH : Heap → Nat → Option String) :
    String × Heap :=
  match h.get? p with
  | none => (obj.str, h)
  | some c =>
    match c with
    | .funcDeclC _ nm sg _ =>
        let h1 := h ++ [.funcDeclC none nm sg none]
        let nc := h.length
        (match prH h1 nc with | none => obj.str | some s => s, h1)
    | .fieldC _ _ _ => (obj.str, h)
    | .typeSpecC _ cm nm ps rhs =>
        let h1 := h ++ [.typeSpecC none cm nm ps rhs]
        let h2 := h1 ++ [.genDeclC none .typeTok 0 0 [h.length]]
        let nc := h1.length
        (match prH h2 nc with | none => obj.str | some s => s, h2)
    | .genDeclC _ tok lp rp specs =>
        let step := genDeclStepH h lp rp specs obj.pos
        let h2 := step.2.2.2 ++ [.genDeclC none tok step.2.1 step.2.2.1 step.1]
        let nc := step.2.2.2.length
        (match prH h2 nc with | none => obj.str | some s => s, h2)
    | .identC _ _ => (obj.str, h)
    | .valueSpecC _ _ _ _ => (obj.str, h)
    | .otherC _ => (obj.str, h)

/-! ### Auxiliary predicates and shared concrete fixtures -/

/-- Is the spec a type spec? -/
def Spec.isTypeSpec : Spec → Bool
  | .typeSpec _ => true
  | _ => false

/-- Is the spec a value spec? -/
def Spec.isValueSpec : Spec → Bool
  | .valueSpec _ => true
  | _ => false

/-- Does the spec match the queried position, in the sense of
`findTypeSpec`/`findVarSpec` (a type spec sits at the position; a value spec
has a name at the position)? -/
def specMatchesPos (pos : Nat) : Spec → Bool
  | .typeSpec t => t.pos = pos
  | .valueSpec v => v.names.any fun nm => nm.2 = pos
  | _ => false

/-- The five declaration kinds listed by the specification's locator
description (spec-side definition, written from the spec's words, for
comparison with the behavior of `locateDecl`). -/
def specLocatorKinds (n : Node) : Bool :=
  match n with
  | .funcDecl _ => true
  | .genDecl _ => true
  | .field _ => true
  | .typeSpec _ => true
  | .valueSpec _ => true
  | _ => false

/-- Does the extractor walk pass through this node without stopping (a plain
identifier, or a type/value spec with neither own doc nor own comment)? -/
def passThrough (n : Node) : Bool :=
  match n with
  | .ident _ _ => true
  | .typeSpec ts => ts.doc.isNone && ts.comment.isNone
  | .valueSpec vs => vs.doc.isNone && vs.comment.isNone
  | _ => false

/-- Does any bucket of the builtin catalogue contain the name? -/
def builtinHasName (pkg : DocPackage) (name : String) : Bool :=
  (builtinFuncs pkg).any (fun f => f.name = name) ||
  (builtinConsts pkg).any (fun v => v.names.contains name) ||
  (builtinVars pkg).any (fun v => v.names.contains name) ||
  pkg.types.any (fun t => t.name = name)

/-- A printer oracle that always fails. -/
def prF : Node → Option String := fun _ => none

/-- A generic concrete object for witnesses. -/
def objW : Obj := { name := "x", pos := 0, pkg := none, kind := .other, str := "var x int" }

/-- A concrete builtin catalogue with `len` bound to a function whose doc
text is empty. -/
def pkgC4 : DocPackage :=
  { funcs := [⟨"len", "", .other "lendecl"⟩], consts := [], vars := [], types := [] }

/-- A builtin `len` object (no owning package). -/
def objC4 : Obj := { name := "len", pos := 0, pkg := none, kind := .other, str := "builtin len" }

/-- Base concrete environment for counterexamples and witnesses. -/
def envC4 : Env :=
  { objectOf := fun _ => objC4, uses := fun _ => objC4, posString := fun _ => "<pos>",
    builtin := pkgC4, pathOf := fun _ => [], printer := fun _ => none,
    importPkg := fun p => .error ("no pkg " ++ p), parseDir := fun _ => .error "no parse",
    docNew := fun _ _ => ⟨"", ""⟩ }

/-- Identifier for the `len` query. -/
def idC4 : Ident := ⟨"len", 0⟩

/-! ### Helper lemmas -/

/-- `genDeclStepH` only ever appends to the heap. -/
theorem genDeclStepH_extends (h : Heap) (lp rp : Nat) (specs : List Nat) (pos : Nat) :
    ∃ d, (genDeclStepH h lp rp specs pos).2.2.2 = h ++ d := by
  unfold genDeclStepH
  repeat' split
  all_goals first
    | exact ⟨[], (List.append_nil h).symm⟩
    | exact ⟨_, rfl⟩

/-- `formatNodeH` only ever appends to the heap. -/
theorem formatNodeH_extends (h : Heap) (p : Nat) (obj : Obj)
    (prH : Heap → Nat → Option String) :
    ∃ d, (formatNodeH h p obj prH).2 = h ++ d := by
  unfold formatNodeH
  repeat' split
  all_goals first
    | exact ⟨[], (List.append_nil h).symm⟩
    | exact ⟨_, rfl⟩
    | exact ⟨_, List.append_assoc h _ _⟩
    | (rename_i d0 tok lp rp specs heq
       obtain ⟨d', hd'⟩ := genDeclStepH_extends h lp rp specs obj.pos
       exact ⟨d' ++ [Cell.genDeclC none tok (genDeclStepH h lp rp specs obj.pos).2.1
           (genDeclStepH h lp rp specs obj.pos).2.2.1 (genDeclStepH h lp rp specs obj.pos).1],
         by simp only [hd', List.append_assoc]⟩)

/-- `formatNode` falls back to `obj.String()` or succeeds with printer
output; with a printer that never returns empty text and a non-empty default
string form, the result is non-empty. -/
theorem formatNode_ne_empty (pr : Node → Option String) (n : Node) (obj : Obj)
    (hstr : obj.str ≠ "") (hpr : ∀ m, pr m ≠ some "") :
    formatNode pr n obj ≠ "" := by
  cases hs : sanitizeNode n obj with
  | none => simpa [formatNode, hs] using hstr
  | some nc =>
    cases hp : pr nc with
    | none => simpa [formatNode, hs, hp] using hstr
    | some s =>
      have hne : s ≠ "" := fun he => hpr nc (he ▸ hp)
      simpa [formatNode, hs, hp] using hne

/-- When no bucket of the catalogue holds the name, `findInBuiltin` returns
the empty pair. -/
theorem findInBuiltin_no_match (pr : Node → Option String) (pkg : DocPackage)
    (name : String) (obj : Obj) (h : builtinHasName pkg name = false) :
    findInBuiltin pr pkg name obj = ("", "") := by
  simp only [builtinHasName, Bool.or_eq_false_iff, List.any_eq_false] at h
  obtain ⟨⟨⟨h1, h2⟩, h3⟩, h4⟩ := h
  have f1 : (builtinFuncs pkg).find? (fun f => f.name = name) = none :=
    List.find?_eq_none.mpr h1
  have f2 : (builtinConsts pkg).find? (fun v => v.names.contains name) = none :=
    List.find?_eq_none.mpr h2
  have f3 : (builtinVars pkg).find? (fun v => v.names.contains name) = none :=
    List.find?_eq_none.mpr h3
  have f4 : pkg.types.find? (fun t => t.name = name) = none :=
    List.find?_eq_none.mpr h4
  unfold findInBuiltin
  rw [f1, f2, f3, f4]

/-- `findInBuiltin` equation: a functions-bucket match wins. -/
theorem findInBuiltin_funcs_eq (pr : Node → Option String) (pkg : DocPackage)
    (name : String) (obj : Obj) (f : DocFunc)
    (hf : (builtinFuncs pkg).find? (fun f => f.name = name) = some f) :
    findInBuiltin pr pkg name obj = (f.doc, formatNode pr f.decl obj) := by
  unfold findInBuiltin
  rw [hf]

/-- `findInBuiltin` equation: with no functions match, a constants-bucket
match wins and carries no declaration text. -/
theorem findInBuiltin_consts_eq (pr : Node → Option String) (pkg : DocPackage)
    (name : String) (obj : Obj) (v : DocValue)
    (hf : (builtinFuncs pkg).find? (fun f => f.name = name) = none)
    (hc : (builtinConsts pkg).find? (fun v => v.names.contains name) = some v) :
    findInBuiltin pr pkg name obj = (v.doc, "") := by
  unfold findInBuiltin
  rw [hf, hc]

/-- `findInBuiltin` equation: with no functions or constants match, a
variables-bucket match wins and carries no declaration text. -/
theorem findInBuiltin_vars_eq (pr : Node → Option String) (pkg : DocPackage)
    (name : String) (obj : Obj) (v : DocValue)
    (hf : (builtinFuncs pkg).find? (fun f => f.name = name) = none)
    (hc : (builtinConsts pkg).find? (fun v => v.names.contains name) = none)
    (hv : (builtinVars pkg).find? (fun v => v.names.contains name) = some v) :
    findInBuiltin pr pkg name obj = (v.doc, "") := by
  unfold findInBuiltin
  rw [hf, hc, hv]

/-- `findInBuiltin` equation: the types bucket is consulted last. -/
theorem findInBuiltin_types_eq (pr : Node → Option String) (pkg : DocPackage)
    (name : String) (obj : Obj) (t : DocType)
    (hf : (builtinFuncs pkg).find? (fun f => f.name = name) = none)
    (hc : (builtinConsts pkg).find? (fun v => v.names.contains name) = none)
    (hv : (builtinVars pkg).find? (fun v => v.names.contains name) = none)
    (ht : pkg.types.find? (fun t => t.name = name) = some t) :
    findInBuiltin pr pkg name obj = (t.doc, formatNode pr t.decl obj) := by
  unfold findInBuiltin
  rw [hf, hc, hv, ht]

/-! ### Claim theorems -/

/-- C2 counterexample: in the declaration-locating walk, the `default: break`
of the Go type switch exits only the switch, so the walk selects the first
non-identifier ancestor even when it is not one of the five declaration
kinds. Here a block-statement-like node is selected. -/
theorem locateDecl_selects_non_decl_kind :
    locateDecl [.ident "x" 1, .other "BlockStmt"] = some (.other "BlockStmt") ∧
    specLocatorKinds (.other "BlockStmt") = false :=
  ⟨rfl, rfl⟩

/-- C2 amended: the declaration-locating walk selects exactly the first
non-identifier node of the ancestor path, of whatever kind (and finds
nothing only when the path consists entirely of identifiers). -/
theorem locateDecl_first_non_ident (l : List Node) :
    locateDecl l = (l.dropWhile Node.isIdent).head? := by
  induction l with
  | nil => rfl
  | cons n rest ih =>
    cases n <;> simp [locateDecl, List.dropWhile, Node.isIdent, ih]

/-- C5: `findInBuiltin` searches the buckets in the fixed order functions,
constants, variables, types, and returns the first match: a functions-bucket
match wins outright; a constants-bucket match wins when functions miss; a
variables-bucket match wins when functions and constants miss; a types-bucket
match is used only when all earlier buckets miss. -/
theorem findInBuiltin_bucket_order (pr : Node → Option String) (pkg : DocPackage)
    (name : String) (obj : Obj) :
    (∀ f, (builtinFuncs pkg).find? (fun f => f.name = name) = some f →
      findInBuiltin pr pkg name obj = (f.doc, formatNode pr f.decl obj)) ∧
    ((builtinFuncs pkg).find? (fun f => f.name = name) = none →
      ∀ v, (builtinConsts pkg).find? (fun v => v.names.contains name) = some v →
        findInBuiltin pr pkg name obj = (v.doc, "")) ∧
    ((builtinFuncs pkg).find? (fun f => f.name = name) = none →
      (builtinConsts pkg).find? (fun v => v.names.contains name) = none →
      ∀ v, (builtinVars pkg).find? (fun v => v.names.contains name) = some v →
        findInBuiltin pr pkg name obj = (v.doc, "")) ∧
    ((builtinFuncs pkg).find? (fun f => f.name = name) = none →
      (builtinConsts pkg).find? (fun v => v.names.contains name) = none →
      (builtinVars pkg).find? (fun v => v.names.contains name) = none →
      ∀ t, pkg.types.find? (fun t => t.name = name) = some t →
        findInBuiltin pr pkg name obj = (t.doc, formatNode pr t.decl obj)) := by
  exact ⟨fun f hf => findInBuiltin_funcs_eq pr pkg name obj f hf,
    fun hf v hv => findInBuiltin_consts_eq pr pkg name obj v hf hv,
    fun hf hc v hv => findInBuiltin_vars_eq pr pkg name obj v hf hc hv,
    fun hf hc hv t ht => findInBuiltin_types_eq pr pkg name obj t hf hc hv ht⟩

/-- Builtin catalogue where the name `x` lives both in the functions bucket
and in the types bucket. -/
def pkgC5 : DocPackage :=
  { funcs := [⟨"x", "func doc", .other "funcdecl"⟩], consts := [], vars := [],
    types := [⟨"x", "type doc", .other "typedecl", [], [], []⟩] }

/-- C5 witness: with `x` in both the functions and types buckets, the
functions-bucket entry wins. -/
theorem findInBuiltin_bucket_order_witness :
    (builtinFuncs pkgC5).find? (fun f => f.name = "x") =
      some ⟨"x", "func doc", .other "funcdecl"⟩ ∧
    findInBuiltin prF pkgC5 "x" objW =
      ("func doc", formatNode prF (.other "funcdecl") objW) :=
  ⟨rfl, (findInBuiltin_bucket_order prF pkgC5 "x" objW).1 _ rfl⟩

/-- C8: `formatNode` is total and never surfaces an error: unsupported node
shapes (fields, identifiers, bare value specs, any other kind) return the
symbol's default string form directly, and a printer failure on a supported
shape also falls back to the default string form. -/
theorem formatNode_never_errors (pr : Node → Option String) (obj : Obj) :
    (∀ f, formatNode pr (.field f) obj = obj.str) ∧
    (∀ tag, formatNode pr (.other tag) obj = obj.str) ∧
    (∀ nm p, formatNode pr (.ident nm p) obj = obj.str) ∧
    (∀ vs, formatNode pr (.valueSpec vs) obj = obj.str) ∧
    (∀ n nc, sanitizeNode n obj = some nc → pr nc = none →
      formatNode pr n obj = obj.str) := by
  refine ⟨fun f => rfl, fun tag => rfl, fun nm p => rfl, fun vs => rfl,
    fun n nc h1 h2 => ?_⟩
  simp [formatNode, h1, h2]

/-- Concrete function declaration node for the C8 witness. -/
def fdW : FuncDecl := ⟨some "doc text", "f", "func f()", some "body"⟩

/-- C8 witness: a failing printer on a function declaration still yields the
default string form. -/
theorem formatNode_never_errors_witness :
    sanitizeNode (.funcDecl fdW) objW = some (.funcDecl ⟨none, "f", "func f()", none⟩) ∧
    formatNode prF (.funcDecl fdW) objW = objW.str :=
  ⟨rfl, (formatNode_never_errors prF objW).2.2.2.2 (.funcDecl fdW)
    (.funcDecl ⟨none, "f", "func f()", none⟩) rfl rfl⟩

/-- C9: `formatNodeH` never mutates the shared syntax tree: every cell of
the incoming heap — the node passed in as well as its sub-spec cells — is
unchanged after the call; sanitization touches only freshly allocated
copies. -/
theorem formatNodeH_frame (h : Heap) (p : Nat) (obj : Obj)
    (prH : Heap → Nat → Option String) :
    ((formatNodeH h p obj prH).2).take h.length = h := by
  obtain ⟨d, hd⟩ := formatNodeH_extends h p obj prH
  rw [hd]
  simp

/-- C10: `Doc.String` mutates its receiver: on a record whose documentation
field is empty, the field is set to "Undocumented." as a side effect, so the
record observed after rendering differs from the original record. -/
theorem DocString_mutates_empty_doc (toText : String → String) (d : Doc)
    (h : d.Doc = "") :
    (DocString toText d).2.Doc = "Undocumented." ∧ (DocString toText d).2 ≠ d := by
  have h2 : (DocString toText d).2 = { d with Doc := "Undocumented." } := by
    simp [DocString, h]
  rw [h2]
  refine ⟨rfl, fun heq => ?_⟩
  have h3 := congrArg Doc.Doc heq
  simp [h] at h3

/-- Concrete record with empty documentation for the C10 witness. -/
def docC10 : Doc := ⟨"n", "imp", "p", "var n int", "", "file.go:1:1"⟩

/-- C10 witness: on `docC10` the rendered receiver carries "Undocumented."
and differs from the original. -/
theorem DocString_mutates_empty_doc_witness :
    docC10.Doc = "" ∧
    (DocString id docC10).2.Doc = "Undocumented." ∧ (DocString id docC10).2 ≠ docC10 :=
  ⟨rfl, DocString_mutates_empty_doc id docC10 rfl⟩

/-- When the resolved object is a package name, `IdentDoc` delegates to
`PackageDoc` on the imported package's true path. -/
theorem IdentDoc_pkgName_aux (env : Env) (id : Ident) (ip : String)
    (h : (resolveObj env id).kind = .pkgName ip) :
    IdentDoc env id = PackageDoc env ip := by
  simp only [IdentDoc]
  rw [h]

/-- C7: for a package-reference symbol (any import binding, aliased or not),
`IdentDoc` returns exactly `PackageDoc` applied to the referenced package's
true import path, and the result is independent of the path oracle and the
printer — the locator, renderer and extractor stages are never consulted. -/
theorem IdentDoc_pkgName (env : Env) (id : Ident) (ip : String)
    (h : (resolveObj env id).kind = .pkgName ip) :
    IdentDoc env id = PackageDoc env ip ∧
    ∀ f pr, IdentDoc { env with pathOf := f, printer := pr } id = IdentDoc env id := by
  refine ⟨IdentDoc_pkgName_aux env id ip h, fun f pr => ?_⟩
  calc IdentDoc { env with pathOf := f, printer := pr } id
      = PackageDoc { env with pathOf := f, printer := pr } ip :=
        IdentDoc_pkgName_aux { env with pathOf := f, printer := pr } id ip h
    _ = PackageDoc env ip := rfl
    _ = IdentDoc env id := (IdentDoc_pkgName_aux env id ip h).symm

/-- A package-name object: `q` bound to import path `real/path`. -/
def objC7 : Obj :=
  { name := "q", pos := 0, pkg := some ⟨"importer", "imp"⟩,
    kind := .pkgName "real/path", str := "package q" }

/-- Environment resolving the identifier to the package-name object. -/
def envC7 : Env := { envC4 with objectOf := fun _ => objC7, uses := fun _ => objC7 }

/-- Identifier for the package-alias query. -/
def idC7 : Ident := ⟨"q", 0⟩

/-- C7 witness: on the concrete alias environment, `IdentDoc` equals
`PackageDoc` at the true import path. -/
theorem IdentDoc_pkgName_witness :
    (resolveObj envC7 idC7).kind = .pkgName "real/path" ∧
    IdentDoc envC7 idC7 = PackageDoc envC7 "real/path" :=
  ⟨rfl, (IdentDoc_pkgName envC7 idC7 "real/path" rfl).1⟩

/-- C4 counterexample: the builtin functions bucket contains `len`, yet
`IdentDoc` returns the not-found error, because the matched entry's
documentation text is empty and `IdentDoc` tests the docstring, not the
existence of a match. -/
theorem IdentDoc_builtin_match_but_error :
    (builtinFuncs envC4.builtin).any (fun f => f.name = "len") = true ∧
    IdentDoc envC4 idC4 = .error "No documentation found for len" :=
  ⟨rfl, rfl⟩

/-- C4 amended: for a builtin symbol (no owning package, not a package
name), `IdentDoc` fails with the "No documentation found" error exactly when
the builtin search's docstring result is empty — which covers both a search
that exhausts all four buckets without a name match and a first match whose
documentation text is empty; a Documentation Record is returned only when the
first match carries non-empty documentation. -/
theorem IdentDoc_builtin_error_iff (env : Env) (id : Ident)
    (hpkg : (resolveObj env id).pkg = none)
    (hkind : ∀ ip, (resolveObj env id).kind ≠ .pkgName ip) :
    (IdentDoc env id =
        .error ("No documentation found for " ++ (resolveObj env id).name) ↔
      (findInBuiltin env.printer env.builtin (resolveObj env id).name
        (resolveObj env id)).1 = "") ∧
    (builtinHasName env.builtin (resolveObj env id).name = false →
      IdentDoc env id =
        .error ("No documentation found for " ++ (resolveObj env id).name)) := by
  cases hk : (resolveObj env id).kind with
  | pkgName ip => exact absurd hk (hkind ip)
  | const v =>
    simp only [IdentDoc, hk, hpkg]
    constructor
    · by_cases hfb : (findInBuiltin env.printer env.builtin (resolveObj env id).name
          (resolveObj env id)).1 = ""
      · simp [hfb]
      · simp [hfb]
    · intro hno
      rw [findInBuiltin_no_match env.printer env.builtin (resolveObj env id).name
        (resolveObj env id) hno]
      simp
  | var a =>
    simp only [IdentDoc, hk, hpkg]
    constructor
    · by_cases hfb : (findInBuiltin env.printer env.builtin (resolveObj env id).name
          (resolveObj env id)).1 = ""
      · simp [hfb]
      · simp [hfb]
    · intro hno
      rw [findInBuiltin_no_match env.printer env.builtin (resolveObj env id).name
        (resolveObj env id) hno]
      simp
  | other =>
    simp only [IdentDoc, hk, hpkg]
    constructor
    · by_cases hfb : (findInBuiltin env.printer env.builtin (resolveObj env id).name
          (resolveObj env id)).1 = ""
      · simp [hfb]
      · simp [hfb]
    · intro hno
      rw [findInBuiltin_no_match env.printer env.builtin (resolveObj env id).name
        (resolveObj env id) hno]
      simp

/-- An empty builtin catalogue. -/
def pkgEmpty : DocPackage := ⟨[], [], [], []⟩

/-- The base environment with an empty builtin catalogue. -/
def envC4W : Env := { envC4 with builtin := pkgEmpty }

/-- C4 witness: with no bucket containing `len`, `IdentDoc` fails with the
not-found error. -/
theorem IdentDoc_builtin_error_iff_witness :
    (resolveObj envC4W idC4).pkg = none ∧
    builtinHasName envC4W.builtin (resolveObj envC4W idC4).name = false ∧
    IdentDoc envC4W idC4 =
      .error ("No documentation found for " ++ (resolveObj envC4W idC4).name) :=
  ⟨rfl, rfl,
    (IdentDoc_builtin_error_iff envC4W idC4 rfl (fun _ h => nomatch h)).2 rfl⟩

/-- The extractor walk keeps ascending across identifiers and across
type/value specs that carry neither own doc nor own comment. -/
theorem extractLoop_passThrough (obj : Obj) (s : String) (pre l : List Node)
    (h : ∀ n ∈ pre, passThrough n = true) :
    extractLoop obj s (pre ++ l) = extractLoop obj s l := by
  induction pre with
  | nil => rfl
  | cons n tl ih =>
    have hn : passThrough n = true := h n (List.mem_cons_self n tl)
    have htl : ∀ m ∈ tl, passThrough m = true := fun m hm => h m (List.mem_cons_of_mem n hm)
    cases n with
    | ident nm ps => simpa [extractLoop] using ih htl
    | typeSpec ts =>
        simp only [passThrough, Bool.and_eq_true, Option.isNone_iff_eq_none] at hn
        simpa [extractLoop, hn.1, hn.2] using ih htl
    | valueSpec vs =>
        simp only [passThrough, Bool.and_eq_true, Option.isNone_iff_eq_none] at hn
        simpa [extractLoop, hn.1, hn.2] using ih htl
    | funcDecl f => simp [passThrough] at hn
    | genDecl g => simp [passThrough] at hn
    | field f => simp [passThrough] at hn
    | other tag => simp [passThrough] at hn

/-- A path holding a grouped declaration always yields a located node. -/
theorem locateDecl_append_genDecl (pre : List Node) (g : GenDecl) (rest : List Node) :
    ∃ node, locateDecl (pre ++ Node.genDecl g :: rest) = some node := by
  induction pre with
  | nil => exact ⟨_, rfl⟩
  | cons n tl ih =>
    cases n with
    | ident nm ps => simpa [locateDecl] using ih
    | funcDecl f => exact ⟨_, rfl⟩
    | genDecl g2 => exact ⟨_, rfl⟩
    | field f => exact ⟨_, rfl⟩
    | typeSpec ts => exact ⟨_, rfl⟩
    | valueSpec vs => exact ⟨_, rfl⟩
    | other tag => exact ⟨_, rfl⟩

/-- C1 amended: the `Constant Value:` line is appended exactly when the
extractor walk reaches the grouped-declaration node — that is, when every
earlier node of the path is an identifier or a type/value spec without own
doc or comment. When it is reached, the line is appended regardless of
whether documentation text (the group's doc) was already present. A
constant whose value spec carries its own doc or comment never gets the
line (see the counterexample). -/
theorem IdentDoc_const_value_line (env : Env) (id : Ident) (p : Pkg) (v : String)
    (pre : List Node) (g : GenDecl) (rest : List Node)
    (hpkg : (resolveObj env id).pkg = some p)
    (hkind : (resolveObj env id).kind = .const v)
    (hv : v ≠ "")
    (hpath : env.pathOf (resolveObj env id).pos = pre ++ Node.genDecl g :: rest)
    (hpre : ∀ n ∈ pre, passThrough n = true) :
    ∃ d base, IdentDoc env id = .ok d ∧ d.Doc = base ++ ("\nConstant Value: " ++ v) := by
  obtain ⟨node, hnode⟩ := locateDecl_append_genDecl pre g rest
  have hdoc : extractLoop (resolveObj env id) "" (pre ++ Node.genDecl g :: rest) =
      (match g.doc with | some t => t | none => "") ++ ("\nConstant Value: " ++ v) := by
    rw [extractLoop_passThrough (resolveObj env id) "" pre _ hpre]
    simp only [extractLoop, hkind]
    rw [if_pos hv]
    cases g.doc <;> simp [String.append_assoc]
  simp only [IdentDoc, hkind, hpkg, hpath, hnode]
  exact ⟨_, _, rfl, hdoc⟩

/-- Value spec of a constant carrying its own doc comment `d`. -/
def vsC1 : ValueSpec :=
  { doc := some "d", comment := none, names := [("MaxRetry", 7)], rhs := "5" }

/-- Grouped constant declaration containing `vsC1`, with a group doc. -/
def gdC1 : GenDecl :=
  { doc := some "group doc", tok := .constTok, lparen := 3, rparen := 9,
    specs := [.valueSpec vsC1] }

/-- The constant object `MaxRetry` with exact value `5`. -/
def objC1 : Obj :=
  { name := "MaxRetry", pos := 7, pkg := some ⟨"p/q", "q"⟩, kind := .const "5",
    str := "const p/q.MaxRetry untyped int" }

/-- Environment whose path oracle yields the constant's ancestor chain. -/
def envC1 : Env :=
  { envC4 with
    objectOf := fun _ => objC1, uses := fun _ => objC1,
    pathOf := fun _ => [.ident "MaxRetry" 7, .valueSpec vsC1, .genDecl gdC1, .other "File"] }

/-- Identifier for the constant query. -/
def idC1 : Ident := ⟨"MaxRetry", 7⟩

/-- The record `IdentDoc` returns for `envC1`. -/
def docC1 : Doc :=
  { Name := "MaxRetry", Import := "p/q", Pkg := "q",
    Decl := "const p/q.MaxRetry untyped int", Pos := "<pos>", Doc := "d" }

/-- C1 counterexample: a constant whose value spec carries its own doc
comment terminates the extraction walk at the value spec, so the returned
documentation is just that text and does not end in a `Constant Value:`
line. -/
theorem IdentDoc_const_no_value_line :
    IdentDoc envC1 idC1 = .ok docC1 ∧
    docC1.Doc = "d" ∧
    ¬ ∃ base, docC1.Doc = base ++ "\nConstant Value: 5" := by
  refine ⟨rfl, rfl, ?_⟩
  rintro ⟨b, hb⟩
  have h2 := congrArg String.length hb
  rw [String.length_append] at h2
  have h3 : ("\nConstant Value: 5" : String).length = 18 := by decide
  have h4 : (Doc.Doc docC1).length = 1 := by decide
  omega

/-- Value spec of a constant with neither own doc nor comment. -/
def vsC1W : ValueSpec :=
  { doc := none, comment := none, names := [("MaxRetry", 7)], rhs := "5" }

/-- Grouped constant declaration containing `vsC1W`. -/
def gdC1W : GenDecl :=
  { doc := some "Max retry count.", tok := .constTok, lparen := 3, rparen := 9,
    specs := [.valueSpec vsC1W] }

/-- Environment whose path oracle yields the undocumented spec's chain. -/
def envC1W : Env :=
  { envC1 with
    pathOf := fun _ => [.ident "MaxRetry" 7, .valueSpec vsC1W, .genDecl gdC1W, .other "File"] }

/-- C1 witness: when the value spec has no own doc or comment, the walk
reaches the grouped declaration and the documentation ends in the constant
value line. -/
theorem IdentDoc_const_value_line_witness :
    (resolveObj envC1W idC1).kind = .const "5" ∧
    ∃ d base, IdentDoc envC1W idC1 = .ok d ∧ d.Doc = base ++ ("\nConstant Value: " ++ "5") :=
  ⟨rfl, IdentDoc_const_value_line envC1W idC1 ⟨"p/q", "q"⟩ "5"
    [.ident "MaxRetry" 7, .valueSpec vsC1W] gdC1W [.other "File"]
    rfl rfl (by decide) rfl (by decide)⟩

/-- Reduction of `IdentDoc` on the builtin branch (no owning package, not a
package name). -/
theorem IdentDoc_builtin_step (env : Env) (id : Ident)
    (hpkg : (resolveObj env id).pkg = none)
    (hkind : ∀ ip, (resolveObj env id).kind ≠ .pkgName ip) :
    IdentDoc env id =
      (if (findInBuiltin env.printer env.builtin (resolveObj env id).name
            (resolveObj env id)).1 ≠ "" then
        Except.ok (Doc.mk (resolveObj env id).name "builtin" "builtin"
          (findInBuiltin env.printer env.builtin (resolveObj env id).name
            (resolveObj env id)).2
          (findInBuiltin env.printer env.builtin (resolveObj env id).name
            (resolveObj env id)).1
          (if (resolveObj env id).pos ≠ 0 then env.posString (resolveObj env id).pos
           else ""))
      else Except.error ("No documentation found for " ++ (resolveObj env id).name)) := by
  cases hk : (resolveObj env id).kind with
  | pkgName ip => exact absurd hk (hkind ip)
  | const v => simp only [IdentDoc, hk, hpkg]
  | var a => simp only [IdentDoc, hk, hpkg]
  | other => simp only [IdentDoc, hk, hpkg]

/-- Reduction of `IdentDoc` on the in-package branch (owning package
present, not a package name). -/
theorem IdentDoc_nonbuiltin_step (env : Env) (id : Ident) (p2 : Pkg)
    (hpkg : (resolveObj env id).pkg = some p2)
    (hkind : ∀ ip, (resolveObj env id).kind ≠ .pkgName ip) :
    IdentDoc env id =
      (match locateDecl (env.pathOf (resolveObj env id).pos) with
       | none => Except.error ("No documentation found for " ++ (resolveObj env id).name)
       | some node => Except.ok (Doc.mk (resolveObj env id).name p2.path p2.name
           (formatNode env.printer node (resolveObj env id))
           (extractLoop (resolveObj env id) "" (env.pathOf (resolveObj env id).pos))
           (if (resolveObj env id).pos ≠ 0 then env.posString (resolveObj env id).pos
            else ""))) := by
  cases hk : (resolveObj env id).kind with
  | pkgName ip => exact absurd hk (hkind ip)
  | const v => simp only [IdentDoc, hk, hpkg]
  | var a => simp only [IdentDoc, hk, hpkg]
  | other => simp only [IdentDoc, hk, hpkg]

/-- Builtin catalogue binding `true` in the constants bucket. -/
def pkgC3 : DocPackage :=
  { funcs := [], consts := [⟨["true"], "true doc"⟩], vars := [], types := [] }

/-- The builtin constant object `true`. -/
def objC3 : Obj :=
  { name := "true", pos := 0, pkg := none, kind := .const "true",
    str := "const true untyped bool" }

/-- Environment for the builtin-constant query. -/
def envC3 : Env :=
  { envC4 with
    builtin := pkgC3, objectOf := fun _ => objC3, uses := fun _ => objC3 }

/-- Identifier for the builtin-constant query. -/
def idC3 : Ident := ⟨"true", 0⟩

/-- The record `IdentDoc` returns for `envC3`: its declaration is empty. -/
def docC3 : Doc := ⟨"true", "builtin", "builtin", "", "true doc", ""⟩

/-- C3 counterexample: a successfully resolved builtin constant produces a
Documentation Record whose declaration field is the empty string — the
constants bucket of `findInBuiltin` returns no declaration text. -/
theorem IdentDoc_builtin_const_empty_decl :
    IdentDoc envC3 idC3 = .ok docC3 ∧ docC3.Decl = "" :=
  ⟨rfl, rfl⟩

/-- C3 amended: for a resolvable symbol the declaration field is the
renderer's output and is non-empty (given a printer that never yields empty
text and a non-empty default string form) — except when the symbol is a
builtin constant or variable, in which case the declaration field is the
empty string. -/
theorem IdentDoc_decl_emptiness (env : Env) (id : Ident) (d : Doc)
    (hstr : (resolveObj env id).str ≠ "")
    (hpr : ∀ n, env.printer n ≠ some "")
    (hkind : ∀ ip, (resolveObj env id).kind ≠ .pkgName ip) :
    (∀ p2, (resolveObj env id).pkg = some p2 →
      IdentDoc env id = .ok d → d.Decl ≠ "") ∧
    ((resolveObj env id).pkg = none →
      ∀ f, (builtinFuncs env.builtin).find?
          (fun f => f.name = (resolveObj env id).name) = some f →
        IdentDoc env id = .ok d → d.Decl ≠ "") ∧
    ((resolveObj env id).pkg = none →
      (builtinFuncs env.builtin).find?
          (fun f => f.name = (resolveObj env id).name) = none →
      ∀ v, (builtinConsts env.builtin).find?
          (fun v => v.names.contains (resolveObj env id).name) = some v →
        IdentDoc env id = .ok d → d.Decl = "") ∧
    ((resolveObj env id).pkg = none →
      (builtinFuncs env.builtin).find?
          (fun f => f.name = (resolveObj env id).name) = none →
      (builtinConsts env.builtin).find?
          (fun v => v.names.contains (resolveObj env id).name) = none →
      ∀ v, (builtinVars env.builtin).find?
          (fun v => v.names.contains (resolveObj env id).name) = some v →
        IdentDoc env id = .ok d → d.Decl = "") ∧
    ((resolveObj env id).pkg = none →
      (builtinFuncs env.builtin).find?
          (fun f => f.name = (resolveObj env id).name) = none →
      (builtinConsts env.builtin).find?
          (fun v => v.names.contains (resolveObj env id).name) = none →
      (builtinVars env.builtin).find?
          (fun v => v.names.contains (resolveObj env id).name) = none →
      ∀ t, env.builtin.types.find?
          (fun t => t.name = (resolveObj env id).name) = some t →
        IdentDoc env id = .ok d → d.Decl ≠ "") := by
  refine ⟨?_, ?_, ?_, ?_, ?_⟩
  · intro p2 hp2 hok
    rw [IdentDoc_nonbuiltin_step env id p2 hp2 hkind] at hok
    cases hl : locateDecl (env.pathOf (resolveObj env id).pos) with
    | none => rw [hl] at hok; exact absurd hok (by simp)
    | some node =>
      rw [hl] at hok
      have hd := (Except.ok.inj hok).symm
      rw [hd]
      exact formatNode_ne_empty env.printer node (resolveObj env id) hstr hpr
  · intro hnone f hf hok
    rw [IdentDoc_builtin_step env id hnone hkind,
      findInBuiltin_funcs_eq env.printer env.builtin (resolveObj env id).name
        (resolveObj env id) f hf] at hok
    by_cases hfd : f.doc = ""
    · rw [if_neg (by simpa using hfd)] at hok
      exact absurd hok (by simp)
    · rw [if_pos (by simpa using hfd)] at hok
      have hd := (Except.ok.inj hok).symm
      rw [hd]
      exact formatNode_ne_empty env.printer f.decl (resolveObj env id) hstr hpr
  · intro hnone hf v hc hok
    rw [IdentDoc_builtin_step env id hnone hkind,
      findInBuiltin_consts_eq env.printer env.builtin (resolveObj env id).name
        (resolveObj env id) v hf hc] at hok
    by_cases hvd : v.doc = ""
    · rw [if_neg (by simpa using hvd)] at hok
      exact absurd hok (by simp)
    · rw [if_pos (by simpa using hvd)] at hok
      have hd := (Except.ok.inj hok).symm
      rw [hd]
  · intro hnone hf hc v hv hok
    rw [IdentDoc_builtin_step env id hnone hkind,
      findInBuiltin_vars_eq env.printer env.builtin (resolveObj env id).name
        (resolveObj env id) v hf hc hv] at hok
    by_cases hvd : v.doc = ""
    · rw [if_neg (by simpa using hvd)] at hok
      exact absurd hok (by simp)
    · rw [if_pos (by simpa using hvd)] at hok
      have hd := (Except.ok.inj hok).symm
      rw [hd]
  · intro hnone hf hc hv t ht hok
    rw [IdentDoc_builtin_step env id hnone hkind,
      findInBuiltin_types_eq env.printer env.builtin (resolveObj env id).name
        (resolveObj env id) t hf hc hv ht] at hok
    by_cases htd : t.doc = ""
    · rw [if_neg (by simpa using htd)] at hok
      exact absurd hok (by simp)
    · rw [if_pos (by simpa using htd)] at hok
      have hd := (Except.ok.inj hok).symm
      rw [hd]
      exact formatNode_ne_empty env.printer t.decl (resolveObj env id) hstr hpr

/-- C3 witness: on the concrete builtin-constant environment the amended
characterization yields the empty declaration. -/
theorem IdentDoc_decl_emptiness_witness :
    (resolveObj envC3 idC3).pkg = none ∧
    IdentDoc envC3 idC3 = .ok docC3 ∧ docC3.Decl = "" := by
  refine ⟨rfl, rfl, ?_⟩
  exact (IdentDoc_decl_emptiness envC3 idC3 docC3 (by decide)
      (fun n h => nomatch h) (fun ip h => nomatch h)).2.2.1
    rfl rfl ⟨["true"], "true doc"⟩ rfl rfl

/-- When exactly one spec of the list matches the position and it is the
type spec `ts`, `findTypeSpec`'s scan returns `ts`. -/
theorem findSome_typeSpec_of_filter (l : List Spec) (pos : Nat) (ts : TypeSpec)
    (h : l.filter (specMatchesPos pos) = [Spec.typeSpec ts]) :
    (l.findSome? fun s =>
      match s with
      | Spec.typeSpec t => if t.pos = pos then some t else none
      | _ => none) = some ts := by
  induction l with
  | nil => simp at h
  | cons s tl ih =>
    cases s with
    | typeSpec t =>
      by_cases hp : t.pos = pos
      · have h2 : Spec.typeSpec t :: tl.filter (specMatchesPos pos) = [Spec.typeSpec ts] := by
          simpa [List.filter_cons, specMatchesPos, hp] using h
        have ht : t = ts := by
          have := (List.cons.injEq _ _ _ _).mp h2
          exact Spec.typeSpec.inj this.1
        subst ht
        simp [List.findSome?_cons, hp]
      · have h2 : tl.filter (specMatchesPos pos) = [Spec.typeSpec ts] := by
          simpa [List.filter_cons, specMatchesPos, hp] using h
        simp [List.findSome?_cons, hp]
        exact ih h2
    | valueSpec v =>
      by_cases hv : (v.names.any fun nm => nm.2 = pos) = true
      · have h2 : Spec.valueSpec v :: tl.filter (specMatchesPos pos) = [Spec.typeSpec ts] := by
          simp only [List.filter_cons, specMatchesPos, hv] at h
          exact h
        exact absurd ((List.cons.injEq _ _ _ _).mp h2).1 (by simp)
      · have h2 : tl.filter (specMatchesPos pos) = [Spec.typeSpec ts] := by
          simpa [List.filter_cons, specMatchesPos, hv] using h
        simpa [List.findSome?_cons] using ih h2
    | importSpec ip =>
      have h2 : tl.filter (specMatchesPos pos) = [Spec.typeSpec ts] := by
        simp only [List.filter_cons, specMatchesPos] at h
        exact h
      simpa [List.findSome?_cons] using ih h2

/-- When exactly one spec of the list matches the position and it is the
value spec `vs`, `findVarSpec`'s scan returns `vs`. -/
theorem findSome_valueSpec_of_filter (l : List Spec) (pos : Nat) (vs : ValueSpec)
    (h : l.filter (specMatchesPos pos) = [Spec.valueSpec vs]) :
    (l.findSome? fun s =>
      match s with
      | Spec.valueSpec v => if (v.names.any fun nm => nm.2 = pos) then some v else none
      | _ => none) = some vs := by
  induction l with
  | nil => simp at h
  | cons s tl ih =>
    cases s with
    | valueSpec v =>
      by_cases hp : (v.names.any fun nm => nm.2 = pos) = true
      · have h2 : Spec.valueSpec v :: tl.filter (specMatchesPos pos) = [Spec.valueSpec vs] := by
          simpa [List.filter_cons, specMatchesPos, hp] using h
        have hv : v = vs := by
          have := (List.cons.injEq _ _ _ _).mp h2
          exact Spec.valueSpec.inj this.1
        subst hv
        simp [List.findSome?_cons, hp]
      · have h2 : tl.filter (specMatchesPos pos) = [Spec.valueSpec vs] := by
          simpa [List.filter_cons, specMatchesPos, hp] using h
        simp [List.findSome?_cons, hp]
        exact ih h2
    | typeSpec t =>
      by_cases hp : t.pos = pos
      · have h2 : Spec.typeSpec t :: tl.filter (specMatchesPos pos) = [Spec.valueSpec vs] := by
          simp only [List.filter_cons, specMatchesPos, hp] at h
          exact h
        exact absurd ((List.cons.injEq _ _ _ _).mp h2).1 (by simp)
      · have h2 : tl.filter (specMatchesPos pos) = [Spec.valueSpec vs] := by
          simpa [List.filter_cons, specMatchesPos, hp] using h
        simpa [List.findSome?_cons, hp] using ih h2
    | importSpec ip =>
      have h2 : tl.filter (specMatchesPos pos) = [Spec.valueSpec vs] := by
        simp only [List.filter_cons, specMatchesPos] at h
        exact h
      simpa [List.findSome?_cons] using ih h2

/-- C6: for a grouped declaration of type specs (resp. value specs) exactly
one of which matches the queried symbol's position, the sanitized copy that
`formatNode` renders keeps only that matching spec (doc dropped) and clears
the grouping parentheses, and the rendered text is the printer's output on
that single-spec copy (with the usual default-string fallback). -/
theorem formatNode_single_spec (pr : Node → Option String) (g : GenDecl) (obj : Obj) :
    (∀ ts : TypeSpec, g.specs.all Spec.isTypeSpec = true →
      g.specs.filter (specMatchesPos obj.pos) = [Spec.typeSpec ts] →
      sanitizeNode (.genDecl g) obj =
        some (.genDecl { g with
          doc := none, lparen := 0, rparen := 0,
          specs := [Spec.typeSpec { ts with doc := none }] }) ∧
      formatNode pr (.genDecl g) obj =
        (pr (.genDecl { g with
          doc := none, lparen := 0, rparen := 0,
          specs := [Spec.typeSpec { ts with doc := none }] })).getD obj.str) ∧
    (∀ vs : ValueSpec, g.specs.all Spec.isValueSpec = true →
      g.specs.filter (specMatchesPos obj.pos) = [Spec.valueSpec vs] →
      sanitizeNode (.genDecl g) obj =
        some (.genDecl { g with
          doc := none, lparen := 0, rparen := 0,
          specs := [Spec.valueSpec { vs with doc := none }] }) ∧
      formatNode pr (.genDecl g) obj =
        (pr (.genDecl { g with
          doc := none, lparen := 0, rparen := 0,
          specs := [Spec.valueSpec { vs with doc := none }] })).getD obj.str) := by
  constructor
  · intro ts hall hfilter
    have hfind : findTypeSpec g obj.pos = some ts :=
      findSome_typeSpec_of_filter g.specs obj.pos ts hfilter
    have hsan : sanitizeNode (.genDecl g) obj =
        some (.genDecl { g with
          doc := none, lparen := 0, rparen := 0,
          specs := [Spec.typeSpec { ts with doc := none }] }) := by
      cases hgs : g.specs with
      | nil => rw [hgs] at hfilter; simp at hfilter
      | cons s0 tl =>
        have hs0 : s0.isTypeSpec = true := by
          rw [hgs] at hall
          simp [List.all_cons] at hall
          exact hall.1
        cases s0 with
        | typeSpec t0 =>
          simp only [sanitizeNode, hgs, hfind]
        | valueSpec v0 => simp [Spec.isTypeSpec] at hs0
        | importSpec ip => simp [Spec.isTypeSpec] at hs0
    refine ⟨hsan, ?_⟩
    rw [formatNode, hsan]
    cases hpn : pr (.genDecl { g with
        doc := none, lparen := 0, rparen := 0,
        specs := [Spec.typeSpec { ts with doc := none }] }) <;> simp [hpn]
  · intro vs hall hfilter
    have hfind : findVarSpec g obj.pos = some vs :=
      findSome_valueSpec_of_filter g.specs obj.pos vs hfilter
    have hsan : sanitizeNode (.genDecl g) obj =
        some (.genDecl { g with
          doc := none, lparen := 0, rparen := 0,
          specs := [Spec.valueSpec { vs with doc := none }] }) := by
      cases hgs : g.specs with
      | nil => rw [hgs] at hfilter; simp at hfilter
      | cons s0 tl =>
        have hs0 : s0.isValueSpec = true := by
          rw [hgs] at hall
          simp [List.all_cons] at hall
          exact hall.1
        cases s0 with
        | valueSpec v0 =>
          simp only [sanitizeNode, hgs, hfind]
        | typeSpec t0 => simp [Spec.isValueSpec] at hs0
        | importSpec ip => simp [Spec.isValueSpec] at hs0
    refine ⟨hsan, ?_⟩
    rw [formatNode, hsan]
    cases hpn : pr (.genDecl { g with
        doc := none, lparen := 0, rparen := 0,
        specs := [Spec.valueSpec { vs with doc := none }] }) <;> simp [hpn]

/-- Type spec `A` of the C6 witness group. -/
def tsA : TypeSpec := ⟨some "docA", none, "A", 11, "int"⟩

/-- Type spec `B` of the C6 witness group (the queried one). -/
def tsB : TypeSpec := ⟨some "docB", none, "B", 22, "string"⟩

/-- A parenthesized two-spec type group. -/
def gdC6 : GenDecl := ⟨some "gdoc", .typeTok, 5, 40, [.typeSpec tsA, .typeSpec tsB]⟩

/-- The queried object sitting at `B`'s position. -/
def objC6 : Obj := { name := "B", pos := 22, pkg := some ⟨"p", "p"⟩, kind := .other, str := "type B" }

/-- C6 witness: of the two grouped type specs only the one at the queried
position survives sanitization, with parentheses cleared. -/
theorem formatNode_single_spec_witness :
    gdC6.specs.all Spec.isTypeSpec = true ∧
    gdC6.specs.filter (specMatchesPos objC6.pos) = [Spec.typeSpec tsB] ∧
    sanitizeNode (.genDecl gdC6) objC6 =
      some (.genDecl ⟨none, .typeTok, 0, 0, [.typeSpec ⟨none, none, "B", 22, "string"⟩]⟩) :=
  ⟨by decide, by decide,
    ((formatNode_single_spec prF gdC6 objC6).1 tsB (by decide) (by decide)).1⟩

end GoTools
